import Mathlib

/-!
Verification of `like_playlist.py`: a shallow embedding in Lean 4 of the
playlist-identifier resolver, the playlist enumerator, the rating invoker
(`like_video`) and the driver (`main`), with theorems settling the spec's
claims about them.

The resolver calls CPython's `urllib.parse.urlparse` / `parse_qs`; those
stdlib functions are modelled here at CPython 3.11 fidelity: tab/CR/LF
removal, scheme detection and lowercasing, netloc splitting with the
unmatched-square-bracket `ValueError` ("Invalid IPv6 URL"), the 3.11
bracketed-host validation (with the `ipaddress` module's textual
IPv6/IPvFuture acceptance modelled in full), fragment and query
splitting, and `parse_qsl` with its default options (separator `&`,
pairs without `=` or with a blank value dropped, `+` to space,
percent-decoding). Two disclosed approximations remain: percent-decoding
is byte-wise (no multi-byte UTF-8 recombination — it affects only the
decoded text of a returned value, never whether the resolver raises),
and `_checknetloc`'s NFKC validation — which provably returns at once
for an all-ASCII netloc but needs Unicode normalization tables
otherwise — is modelled only through its ASCII short-circuit, so the
theorems characterizing when the resolver raises carry an
ASCII-input hypothesis and the model is exact on that domain.
-/

deriving instance DecidableEq for Except

namespace LikePlaylist

/-! ## Model of the pieces of `urllib.parse` used by `extract_playlist_id` -/

/-- Characters CPython's `urlsplit` accepts inside a URL scheme. -/
def isSchemeChar (c : Char) : Bool :=
  c.isAlpha || c.isDigit || c == '+' || c == '-' || c == '.'

/-- `urlsplit` deletes tab, CR and LF from the URL before parsing. -/
def removeUnsafeChars (cs : List Char) : List Char :=
  cs.filter (fun c => !(c == '\t' || c == '\r' || c == '\n'))

/-- Split a character list at the first occurrence of `d`; the second
component starts with `d` itself when present (mirrors `str.find` +
slicing, and `str.split(d, 1)` after dropping the head of the second
component). -/
def breakAtChar (d : Char) : List Char → List Char × List Char
  | [] => ([], [])
  | c :: cs =>
    if c == d then ([], c :: cs)
    else
      let r := breakAtChar d cs
      (c :: r.1, r.2)

/-- `str.split(d)` semantics: splitting the empty string gives `[[]]`. -/
def splitOnChar (d : Char) : List Char → List (List Char)
  | [] => [[]]
  | c :: cs =>
    if c == d then [] :: splitOnChar d cs
    else
      match splitOnChar d cs with
      | [] => [[c]]
      | g :: gs => (c :: g) :: gs

/-- Value of a hexadecimal digit, as accepted by `urllib.parse.unquote`
and by `ipaddress._parse_hextet`. -/
def hexDigitVal (c : Char) : Option Nat :=
  if '0' ≤ c ∧ c ≤ '9' then some (c.toNat - '0'.toNat)
  else if 'a' ≤ c ∧ c ≤ 'f' then some (c.toNat - 'a'.toNat + 10)
  else if 'A' ≤ c ∧ c ≤ 'F' then some (c.toNat - 'A'.toNat + 10)
  else none

/-- Decimal value of an ASCII-digit string. -/
def decimalVal (cs : List Char) : Nat :=
  cs.foldl (fun n c => n * 10 + (c.toNat - '0'.toNat)) 0

/-- `ipaddress.IPv4Address._parse_octet` (CPython 3.11): non-empty,
ASCII decimal digits only, at most 3 characters, no leading zero
except `"0"` itself, value at most 255. -/
def validOctet (cs : List Char) : Bool :=
  !cs.isEmpty && cs.all Char.isDigit && decide (cs.length ≤ 3) &&
  (cs == ['0'] || (cs.headD ' ' != '0')) &&
  decide (decimalVal cs ≤ 255)

/-- `ipaddress.IPv4Address` textual validity: no `/`, exactly four
valid octets separated by dots. -/
def validIPv4 (cs : List Char) : Bool :=
  !cs.contains '/' &&
  (let parts := splitOnChar '.' cs
   parts.length == 4 && parts.all validOctet)

/-- `ipaddress.IPv6Address._parse_hextet`: hex digits only, at most 4
characters, non-empty (`int('', 16)` raises). -/
def validHextet (cs : List Char) : Bool :=
  cs.all (fun c => (hexDigitVal c).isSome) && decide (cs.length ≤ 4) &&
  !cs.isEmpty

/-- The `'::'` bookkeeping of `IPv6Address._ip_int_from_string` on the
colon-separated parts (after any embedded-IPv4 suffix replacement): at
most 9 parts; at most one empty interior part (the `::` skip); an empty
endpoint only adjacent to the skip; at least one group actually
skipped; every counted part a valid hextet. Without a skip, exactly 8
valid hextets. -/
def validIPv6Parts (parts : List (List Char)) : Bool :=
  if decide (parts.length > 9) then false
  else
    let n := parts.length
    let empties := (List.range n).filter
      (fun i => decide (1 ≤ i) && decide (i + 1 < n) && (parts.getD i []).isEmpty)
    match empties with
    | [] => decide (n = 8) && parts.all validHextet
    | [i] =>
      let headEmpty := (parts.getD 0 []).isEmpty
      let lastEmpty := (parts.getD (n - 1) []).isEmpty
      let hiOk := if headEmpty then i == 1 else true
      let loOk := if lastEmpty then i == n - 2 else true
      let parts_hi := if headEmpty then i - 1 else i
      let parts_lo := if lastEmpty then n - i - 2 else n - i - 1
      hiOk && loOk && decide (parts_hi + parts_lo ≤ 7) &&
      (parts.take parts_hi).all validHextet &&
      (parts.drop (n - parts_lo)).all validHextet
    | _ => false

/-- `IPv6Address._ip_int_from_string` validity: non-empty, at least two
colons, an embedded IPv4 suffix (last part containing a dot) replaced
by two always-valid hextets, then the parts check. -/
def validIPv6NoScope (cs : List Char) : Bool :=
  if cs.isEmpty then false
  else
    let parts0 := splitOnChar ':' cs
    if decide (parts0.length < 3) then false
    else
      let lastPart := parts0.getLast?.getD []
      if lastPart.contains '.' then
        validIPv4 lastPart && validIPv6Parts (parts0.dropLast ++ [['0'], ['0']])
      else validIPv6Parts parts0

/-- `ipaddress.IPv6Address` textual validity (CPython 3.11): no `/`; an
optional `%scope_id` after the address, non-empty and without a further
`%`. A string valid as IPv4 is never valid here (it has no colon), so
this also decides what `ipaddress.ip_address` accepts without returning
an `IPv4Address`. -/
def validIPv6 (cs : List Char) : Bool :=
  !cs.contains '/' &&
  (let p := breakAtChar '%' cs
   match p.2 with
   | [] => validIPv6NoScope cs
   | _ :: scope =>
     (!scope.isEmpty && !scope.contains '%') && validIPv6NoScope p.1)

/-- `urllib.parse._check_bracketed_host` (CPython 3.11), as a predicate
(`false` = raises `ValueError`): a host starting with `v` must match
the IPvFuture pattern `\Av[a-fA-F0-9]+\..+\Z` (`.` does not match a
newline); any other host must be a valid IPv6 address — a valid IPv4
address, or anything else, raises. -/
def check_bracketed_host (host : List Char) : Bool :=
  match host with
  | 'v' :: rest =>
    let p := breakAtChar '.' rest
    !p.1.isEmpty && p.1.all (fun c => (hexDigitVal c).isSome) &&
    (match p.2 with
     | [] => false
     | _ :: tailPart => !tailPart.isEmpty && !tailPart.contains '\n')
  | _ => validIPv6 host

/-- The components of `urllib.parse.urlsplit` that the resolver reads. -/
structure SplitResult where
  scheme : String
  netloc : String
  path : String
  query : String
deriving DecidableEq

/-- Fragment and query extraction, applied after scheme/netloc removal:
drop everything from the first `#`, then split at the first `?`. -/
def mkSplit (scheme netloc url : List Char) : SplitResult :=
  let noFrag := (breakAtChar '#' url).1
  let pq := breakAtChar '?' noFrag
  ⟨String.mk scheme, String.mk netloc, String.mk pq.1, String.mk pq.2.tail⟩

/-- Model of `urllib.parse.urlsplit` (hence of `urlparse`, whose extra
params-splitting does not touch scheme or query), CPython 3.11: scheme
is split off when a `:` occurs at index > 0 with an ASCII-alphabetic
first character and only scheme characters before it; a `//` start of
the remainder yields the netloc, rejected with
`ValueError("Invalid IPv6 URL")` when it contains `[` without `]` or
vice versa, and its bracketed host (the text between the first `[` and
the following `]`), when brackets are present, validated by
`_check_bracketed_host`. The remaining `_checknetloc` NFKC validation
returns immediately for an all-ASCII netloc and is not modelled beyond
that: on a non-ASCII netloc the real `urlsplit` may additionally raise
`ValueError` when NFKC normalization changes the netloc and introduces
a separator, a condition resting on Unicode normalization tables
outside this embedding — theorems about when the resolver raises are
therefore stated for ASCII inputs, where this model is exact. -/
def urlsplit (s : String) : Except String SplitResult :=
  let url0 := removeUnsafeChars s.data
  let p := breakAtChar ':' url0
  let hasScheme : Bool :=
    !p.2.isEmpty && !p.1.isEmpty && (p.1.headD ' ').isAlpha && p.1.all isSchemeChar
  let scheme := if hasScheme then p.1.map Char.toLower else []
  let url1 := if hasScheme then p.2.tail else url0
  match url1 with
  | '/' :: '/' :: rest =>
    let q := rest.span (fun c => !(c == '/' || c == '?' || c == '#'))
    if (q.1.contains '[' ) != (q.1.contains ']') then
      Except.error ("Invalid IPv6 URL")
    else if q.1.contains '[' && q.1.contains ']' then
      let bh := (breakAtChar ']' ((breakAtChar '[' q.1).2.tail)).1
      if check_bracketed_host bh then Except.ok (mkSplit scheme q.1 q.2)
      else Except.error ("bracketed host is not a valid IPv6 or IPvFuture address")
    else Except.ok (mkSplit scheme q.1 q.2)
  | _ => Except.ok (mkSplit scheme [] url1)

/-- Byte-wise model of `urllib.parse.unquote`: a `%` followed by two hex
digits decodes to that byte; otherwise the `%` is kept verbatim. -/
def unquoteChars : List Char → List Char
  | [] => []
  | '%' :: a :: b :: rest =>
    match hexDigitVal a, hexDigitVal b with
    | some x, some y => Char.ofNat (16 * x + y) :: unquoteChars rest
    | _, _ => '%' :: unquoteChars (a :: b :: rest)
  | c :: rest => c :: unquoteChars rest

/-- `parse_qsl` replaces `+` by space before percent-decoding. -/
def plusToSpace (cs : List Char) : List Char :=
  cs.map (fun c => if c == '+' then ' ' else c)

/-- One `name=value` pair of `parse_qsl` with default options: empty
pairs, pairs without `=`, and pairs with a blank value are dropped. -/
def qsPair (pair : List Char) : Option (String × String) :=
  if pair.isEmpty then none
  else
    let nv := breakAtChar '=' pair
    match nv.2 with
    | [] => none
    | _ :: value =>
      if value.isEmpty then none
      else
        some (String.mk (unquoteChars (plusToSpace nv.1)),
              String.mk (unquoteChars (plusToSpace value)))

/-- Model of `urllib.parse.parse_qsl` with default options. -/
def parse_qsl (qs : List Char) : List (String × String) :=
  (splitOnChar '&' qs).filterMap qsPair

/-- The list `parse_qs(query)[key]` (empty when `key` is absent):
`parse_qs` groups `parse_qsl`'s pairs by name, keeping value order. -/
def qsGet (query : String) (key : String) : List String :=
  (parse_qsl query.data).filterMap (fun p => if p.1 = key then some p.2 else none)

/-- Characters matched by `[A-Za-z0-9_-]`. -/
def isIdChar (c : Char) : Bool :=
  c.isAlpha || c.isDigit || c == '_' || c == '-'

/-- Model of `re.match(r'^(PL|UU|FL|OL|RD)[A-Za-z0-9_-]+$', s)` being
truthy; the `$` also matches just before one trailing newline. -/
def playlistIdMatch (s : String) : Bool :=
  let cs := s.data
  let cs := if cs.getLast? == some '\n' then cs.dropLast else cs
  match cs with
  | p1 :: p2 :: rest =>
    ((p1 == 'P' && p2 == 'L') || (p1 == 'U' && p2 == 'U') ||
     (p1 == 'F' && p2 == 'L') || (p1 == 'O' && p2 == 'L') ||
     (p1 == 'R' && p2 == 'D')) && !rest.isEmpty && rest.all isIdChar
  | _ => false

/-! ## The playlist identifier resolver -/

/-- Embedding of `extract_playlist_id` (like_playlist.py lines 43-57).
`Except.error` models a raised `ValueError`: the explicit raise on an
empty input, and the error `urlparse` itself can raise. -/
def extract_playlist_id (s : String) : Except String String :=
  if s = "" then Except.error ("Empty playlist id/url")
  else
    match urlsplit s with
    | Except.error e => Except.error e
    | Except.ok parsed =>
      if parsed.scheme = "http" ∨ parsed.scheme = "https" then
        match qsGet parsed.query ("list") with
        | v :: _ => Except.ok v
        | [] =>
          if playlistIdMatch s then Except.ok s else Except.ok s
      else
        if playlistIdMatch s then Except.ok s else Except.ok s

example : extract_playlist_id "" = Except.error ("Empty playlist id/url") := by decide
example : extract_playlist_id "https://www.youtube.com/playlist?list=PLabc&index=2" =
    Except.ok ("PLabc") := by decide
example : extract_playlist_id "PLabc_12-3" = Except.ok ("PLabc_12-3") := by decide
example : extract_playlist_id "http://[" = Except.error ("Invalid IPv6 URL") := by decide
example : extract_playlist_id "https://x.com/watch?v=1" = Except.ok ("https://x.com/watch?v=1") := by decide
example : extract_playlist_id "https://x?list=" = Except.ok ("https://x?list=") := by decide
example : extract_playlist_id "HTTPS://x?list=Y" = Except.ok ("Y") := by decide
example : extract_playlist_id "not a url at all" = Except.ok ("not a url at all") := by decide

/-! Sanity checks of the bracketed-host model against
`ipaddress`/`_check_bracketed_host` behaviour on CPython 3.11. -/

example : check_bracketed_host ("::1").data = true := by decide
example : check_bracketed_host ("::").data = true := by decide
example : check_bracketed_host ("1:2:3:4:5:6:7:8").data = true := by decide
example : check_bracketed_host ("fe80::1%eth0").data = true := by decide
example : check_bracketed_host ("::ffff:192.168.0.1").data = true := by decide
example : check_bracketed_host ("v1.future").data = true := by decide
example : check_bracketed_host ("abc").data = false := by decide
example : check_bracketed_host ("").data = false := by decide
example : check_bracketed_host ("1.2.3.4").data = false := by decide
example : check_bracketed_host ("::ffff:192.168.00.1").data = false := by decide
example : check_bracketed_host ("1:2:3:4:5:6:7:8:9").data = false := by decide
example : check_bracketed_host ("12345::").data = false := by decide
example : check_bracketed_host ("1:::2").data = false := by decide
example : check_bracketed_host ("1:2:3:4:5:6:7::8").data = false := by decide
example : check_bracketed_host ("vg.x").data = false := by decide
example : check_bracketed_host ("fe80::1%").data = false := by decide
example : extract_playlist_id "http://[::1]/watch?list=PL9" = Except.ok ("PL9") := by decide
example : extract_playlist_id "http://[abc]" =
    Except.error ("bracketed host is not a valid IPv6 or IPvFuture address") := by decide
example : extract_playlist_id "http://]x[" =
    Except.error ("bracketed host is not a valid IPv6 or IPvFuture address") := by decide

/-! ## The rating invoker `like_video`

A mocked run is a function from the 1-based attempt number to what the
`youtube.videos().rate(...).execute()` call does on that attempt:
succeed, raise an `HttpError` carrying the status the code extracts via
`getattr(e, 'status_code', None) or (getattr(e, 'resp', None) and
e.resp.status)` (`none` models a falsy extraction result), or raise any
other `Exception`. -/

/-- Outcome of one `videos().rate(...).execute()` call. -/
inductive AttemptOutcome where
  | success : AttemptOutcome
  | httpError : Option Nat → AttemptOutcome
  | otherError : AttemptOutcome
deriving DecidableEq

/-- The condition `status and int(status) in (403, 429, 500, 503)` of
like_playlist.py line 103 (a falsy status — absent or 0 — fails it). -/
def transientStatus : Option Nat → Bool
  | some st => st != 0 && (st == 403 || st == 429 || st == 500 || st == 503)
  | none => false

/-- What one call of `like_video` did: its returned boolean, the backoff
sleeps performed in order (line 105), and how many attempts ran. -/
structure LikeResult where
  ok : Bool
  sleeps : List Nat
  attempts : Nat
deriving DecidableEq

/-- The retry loop of `like_video` (lines 96-112), one step per
iteration of `for attempt in range(1, max_retries + 1)`; `fuel` is the
number of loop iterations left, so the top-level call has
`fuel = max_retries` and running out of fuel is the `return False`
after the loop. -/
def like_videoAux (outcome : Nat → AttemptOutcome) (max_retries : Nat) :
    Nat → Nat → LikeResult
  | _, 0 => ⟨false, [], 0⟩
  | attempt, fuel + 1 =>
    match outcome attempt with
    | AttemptOutcome.success => ⟨true, [], 1⟩
    | AttemptOutcome.httpError st =>
      if transientStatus st && decide (attempt < max_retries) then
        let r := like_videoAux outcome max_retries (attempt + 1) fuel
        ⟨r.ok, 2 ^ attempt :: r.sleeps, r.attempts + 1⟩
      else ⟨false, [], 1⟩
    | AttemptOutcome.otherError => ⟨false, [], 1⟩

/-- Embedding of `like_video` (like_playlist.py lines 94-112). -/
def like_video (outcome : Nat → AttemptOutcome) (max_retries : Nat := 4) :
    LikeResult :=
  like_videoAux outcome max_retries 1 max_retries

/-- An attempt outcome that triggers the retry branch: an `HttpError`
whose extracted status passes the line-103 transiency test. -/
def transientOutcome : AttemptOutcome → Bool
  | AttemptOutcome.httpError st => transientStatus st
  | _ => false

/-- The mocked failure sequence [429, 429, success]. -/
def outcomes429 : Nat → AttemptOutcome
  | 1 => AttemptOutcome.httpError (some 429)
  | 2 => AttemptOutcome.httpError (some 429)
  | _ => AttemptOutcome.success

/-- A run on which every attempt fails with HTTP 429. -/
def outcomesAll429 : Nat → AttemptOutcome :=
  fun _ => AttemptOutcome.httpError (some 429)

/-- A run on which the first attempt fails with a permanent HTTP 404. -/
def outcomes404 : Nat → AttemptOutcome :=
  fun _ => AttemptOutcome.httpError (some 404)

example : like_video outcomes429 = ⟨true, [2, 4], 3⟩ := by decide
example : like_video outcomesAll429 = ⟨false, [2, 4, 8], 4⟩ := by decide
example : like_video outcomes404 = ⟨false, [], 1⟩ := by decide
example : like_video (fun _ => AttemptOutcome.otherError) = ⟨false, [], 1⟩ := by decide
example : like_video (fun _ => AttemptOutcome.success) = ⟨true, [], 1⟩ := by decide
example : like_video (fun _ => AttemptOutcome.httpError none) = ⟨false, [], 1⟩ := by decide

/-! ### Run lemmas about the retry loop -/

theorem like_videoAux_attempts_pos (outcome : Nat → AttemptOutcome)
    (m a fuel : Nat) (hf : 1 ≤ fuel) :
    1 ≤ (like_videoAux outcome m a fuel).attempts := by
  match fuel, hf with
  | fuel + 1, _ =>
    simp only [like_videoAux]
    cases outcome a with
    | success => simp
    | httpError st =>
      by_cases h : (transientStatus st && decide (a < m)) = true
      · simp [h]
      · simp [h]
    | otherError => simp

theorem like_videoAux_attempts_le (outcome : Nat → AttemptOutcome)
    (m : Nat) : ∀ fuel a, (like_videoAux outcome m a fuel).attempts ≤ fuel := by
  intro fuel
  induction fuel with
  | zero => intro a; simp [like_videoAux]
  | succ f ih =>
    intro a
    simp only [like_videoAux]
    cases outcome a with
    | success => simp
    | httpError st =>
      by_cases h : (transientStatus st && decide (a < m)) = true
      · simpa [h] using ih (a + 1)
      · simp [h]
    | otherError => simp

/-- Each backoff sleep before a retry is `2 ^ attempt`: along the run
the sleeps are exactly `2^a, 2^(a+1), ...`, one per non-final attempt. -/
theorem like_videoAux_sleeps_eq (outcome : Nat → AttemptOutcome) (m : Nat) :
    ∀ fuel a, a + fuel = m + 1 →
      (like_videoAux outcome m a fuel).sleeps =
        (List.range' a ((like_videoAux outcome m a fuel).attempts - 1)).map
          (fun i => 2 ^ i) := by
  intro fuel
  induction fuel with
  | zero => intro a _; simp [like_videoAux]
  | succ f ih =>
    intro a hinv
    simp only [like_videoAux]
    cases outcome a with
    | success => simp
    | httpError st =>
      by_cases h : (transientStatus st && decide (a < m)) = true
      · have hf : 1 ≤ f := by
          have := (Bool.and_eq_true _ _).mp h
          have ham : a < m := of_decide_eq_true this.2
          omega
        have hpos := like_videoAux_attempts_pos outcome m (a + 1) f hf
        have hrec := ih (a + 1) (by omega)
        simp only [h, if_true]
        simp only [LikeResult.sleeps, LikeResult.attempts] at *
        rw [hrec]
        have : (like_videoAux outcome m (a + 1) f).attempts + 1 - 1 =
            ((like_videoAux outcome m (a + 1) f).attempts - 1) + 1 := by omega
        rw [this, List.range'_succ, List.map_cons]
      · simp [h]
    | otherError => simp

theorem like_videoAux_step_success (outcome : Nat → AttemptOutcome)
    (m a fuel : Nat) (h : outcome a = AttemptOutcome.success) :
    like_videoAux outcome m a (fuel + 1) = ⟨true, [], 1⟩ := by
  simp [like_videoAux, h]

theorem like_videoAux_step_retry (outcome : Nat → AttemptOutcome)
    (m a fuel : Nat) (st : Option Nat)
    (h : outcome a = AttemptOutcome.httpError st)
    (hc : (transientStatus st && decide (a < m)) = true) :
    like_videoAux outcome m a (fuel + 1) =
      ⟨(like_videoAux outcome m (a + 1) fuel).ok,
       2 ^ a :: (like_videoAux outcome m (a + 1) fuel).sleeps,
       (like_videoAux outcome m (a + 1) fuel).attempts + 1⟩ := by
  simp [like_videoAux, h, hc]

theorem like_videoAux_step_stop (outcome : Nat → AttemptOutcome)
    (m a fuel : Nat) (st : Option Nat)
    (h : outcome a = AttemptOutcome.httpError st)
    (hc : (transientStatus st && decide (a < m)) = false) :
    like_videoAux outcome m a (fuel + 1) = ⟨false, [], 1⟩ := by
  simp [like_videoAux, h, hc]

theorem like_videoAux_step_other (outcome : Nat → AttemptOutcome)
    (m a fuel : Nat) (h : outcome a = AttemptOutcome.otherError) :
    like_videoAux outcome m a (fuel + 1) = ⟨false, [], 1⟩ := by
  simp [like_videoAux, h]

/-- The loop returns `True` exactly when some attempt's rating call
succeeds after a run of retried (transient, attempts-remaining)
failures. -/
theorem like_videoAux_ok_iff (outcome : Nat → AttemptOutcome) (m : Nat) :
    ∀ fuel a, a + fuel = m + 1 →
      ((like_videoAux outcome m a fuel).ok = true ↔
        ∃ k, a ≤ k ∧ k ≤ m ∧ outcome k = AttemptOutcome.success ∧
          ∀ j, a ≤ j → j < k → transientOutcome (outcome j) = true) := by
  intro fuel
  induction fuel with
  | zero =>
    intro a hinv
    constructor
    · intro h; simp [like_videoAux] at h
    · rintro ⟨k, hk1, hk2, -, -⟩; omega
  | succ f ih =>
    intro a hinv
    simp only [like_videoAux]
    cases heq : outcome a with
    | success =>
      simp only [LikeResult.ok]
      constructor
      · intro _
        exact ⟨a, le_refl a, by omega, heq, fun j hj1 hj2 => absurd hj1 (by omega)⟩
      · intro _; trivial
    | httpError st =>
      by_cases hc : (transientStatus st && decide (a < m)) = true
      · have hts : transientStatus st = true := ((Bool.and_eq_true _ _).mp hc).1
        have ham : a < m := of_decide_eq_true ((Bool.and_eq_true _ _).mp hc).2
        simp only [hc, if_true]
        rw [ih (a + 1) (by omega)]
        constructor
        · rintro ⟨k, hk1, hk2, hks, hkt⟩
          refine ⟨k, by omega, hk2, hks, fun j hj1 hj2 => ?_⟩
          rcases Nat.lt_or_ge j (a + 1) with hj | hj
          · have : j = a := by omega
            subst this
            simp [transientOutcome, heq, hts]
          · exact hkt j hj hj2
        · rintro ⟨k, hk1, hk2, hks, hkt⟩
          have hka : a ≠ k := by
            intro h; subst h; rw [heq] at hks; exact absurd hks (by simp)
          exact ⟨k, by omega, hk2, hks, fun j hj1 hj2 => hkt j (by omega) hj2⟩
      · simp only [hc, if_false, LikeResult.ok]
        constructor
        · intro h; exact absurd h (by simp)
        · rintro ⟨k, hk1, hk2, hks, hkt⟩
          have hka : a ≠ k := by
            intro h; subst h; rw [heq] at hks; exact absurd hks (by simp)
          have hta : transientOutcome (outcome a) = true := hkt a (le_refl a) (by omega)
          rw [heq] at hta
          have hts : transientStatus st = true := hta
          have : ¬ a < m := by
            intro hlt
            exact hc (by simp [hts, hlt])
          omega
    | otherError =>
      simp only [LikeResult.ok]
      constructor
      · intro h; exact absurd h (by simp)
      · rintro ⟨k, hk1, hk2, hks, hkt⟩
        have hka : a ≠ k := by
          intro h; subst h; rw [heq] at hks; exact absurd hks (by simp)
        have hta : transientOutcome (outcome a) = true := hkt a (le_refl a) (by omega)
        rw [heq] at hta
        simp [transientOutcome] at hta

/-- Attempt `t + 1` runs exactly when attempts remained and every
attempt up to `t` failed transiently. -/
theorem like_videoAux_attempts_iff (outcome : Nat → AttemptOutcome) (m : Nat) :
    ∀ fuel a, a + fuel = m + 1 → 1 ≤ fuel → ∀ t, 1 ≤ t →
      (t < (like_videoAux outcome m a fuel).attempts ↔
        (a + t ≤ m ∧
          ∀ j, a ≤ j → j < a + t → transientOutcome (outcome j) = true)) := by
  intro fuel
  induction fuel with
  | zero => intro a _ hf; omega
  | succ f ih =>
    intro a hinv _ t ht
    cases heq : outcome a with
    | success =>
      rw [like_videoAux_step_success outcome m a f heq]
      constructor
      · intro h
        have h1 : t < 1 := h
        omega
      · rintro ⟨-, hall⟩
        have := hall a (le_refl a) (by omega)
        rw [heq] at this
        simp [transientOutcome] at this
    | httpError st =>
      by_cases hc : (transientStatus st && decide (a < m)) = true
      · have hts : transientStatus st = true := ((Bool.and_eq_true _ _).mp hc).1
        have ham : a < m := of_decide_eq_true ((Bool.and_eq_true _ _).mp hc).2
        have hf1 : 1 ≤ f := by omega
        rw [like_videoAux_step_retry outcome m a f st heq hc]
        rcases Nat.eq_or_lt_of_le ht with ht1 | ht2
        · constructor
          · intro _
            refine ⟨by omega, fun j hj1 hj2 => ?_⟩
            have hja : j = a := by omega
            subst hja
            rw [heq]
            simpa [transientOutcome] using hts
          · intro _
            show t < (like_videoAux outcome m (a + 1) f).attempts + 1
            have := like_videoAux_attempts_pos outcome m (a + 1) f hf1
            omega
        · have hrec := ih (a + 1) (by omega) hf1 (t - 1) (by omega)
          constructor
          · intro h
            have h' : t < (like_videoAux outcome m (a + 1) f).attempts + 1 := h
            have h2 : t - 1 < (like_videoAux outcome m (a + 1) f).attempts := by omega
            rcases hrec.mp h2 with ⟨hb, hall⟩
            refine ⟨by omega, fun j hj1 hj2 => ?_⟩
            rcases Nat.lt_or_ge j (a + 1) with hj | hj
            · have hja : j = a := by omega
              subst hja
              rw [heq]
              simpa [transientOutcome] using hts
            · exact hall j hj (by omega)
          · rintro ⟨hb, hall⟩
            have h2 : t - 1 < (like_videoAux outcome m (a + 1) f).attempts :=
              hrec.mpr ⟨by omega, fun j hj1 hj2 => hall j (by omega) (by omega)⟩
            show t < (like_videoAux outcome m (a + 1) f).attempts + 1
            omega
      · have hc' : (transientStatus st && decide (a < m)) = false := by
          cases hb : (transientStatus st && decide (a < m))
          · rfl
          · exact absurd hb hc
        rw [like_videoAux_step_stop outcome m a f st heq hc']
        constructor
        · intro h
          have h1 : t < 1 := h
          omega
        · rintro ⟨hb, hall⟩
          have hta := hall a (le_refl a) (by omega)
          rw [heq] at hta
          have hts2 : transientStatus st = true := hta
          have hnm : ¬ a < m := by
            intro hlt
            rw [hts2, decide_eq_true hlt] at hc'
            simp at hc'
          omega
    | otherError =>
      rw [like_videoAux_step_other outcome m a f heq]
      constructor
      · intro h
        have h1 : t < 1 := h
        omega
      · rintro ⟨-, hall⟩
        have := hall a (le_refl a) (by omega)
        rw [heq] at this
        simp [transientOutcome] at this

/-! ## Claims C1-C3 about the rating invoker -/

/-- C1 (counterexample to the stated schedule): even on the worst-case
run where EVERY attempt fails with HTTP 429, the default 4-attempt
`like_video` sleeps 2, 4 and 8 seconds — three backoff sleeps, not
four; a 16-second sleep never occurs because the 4th attempt is final
(`attempt < max_retries` fails at `attempt = 4`). -/
theorem like_video_schedule_has_no_16 :
    (like_video outcomesAll429).sleeps = [2, 4, 8] ∧
    16 ∉ (like_video outcomesAll429).sleeps ∧
    (like_video outcomesAll429).attempts = 4 := by decide

/-- C1 (amended): `like_video` (default max 4 attempts) sleeps
`2 ^ attempt` seconds before each retry after a recognized transient
failure with attempts remaining — the i-th sleep of a run is
`2 ^ i` — so across the 4 attempts the sleep trace is a prefix of the
fixed schedule 2, 4, 8 (at most three sleeps; never 16); in particular
a run of [429, 429, success] succeeds on the 3rd attempt after sleeping
2s then 4s. -/
theorem like_video_backoff_schedule (outcome : Nat → AttemptOutcome) :
    (like_video outcome).sleeps =
      (List.range' 1 ((like_video outcome).attempts - 1)).map (fun i => 2 ^ i) ∧
    (like_video outcome).sleeps ∈ ([[], [2], [2, 4], [2, 4, 8]] : List (List Nat)) ∧
    (outcome 1 = AttemptOutcome.httpError (some 429) →
     outcome 2 = AttemptOutcome.httpError (some 429) →
     outcome 3 = AttemptOutcome.success →
     like_video outcome = ⟨true, [2, 4], 3⟩) := by
  have hs := like_videoAux_sleeps_eq outcome 4 4 1 (by omega)
  have hle := like_videoAux_attempts_le outcome 4 4 1
  refine ⟨hs, ?_, ?_⟩
  · rw [show like_video outcome = like_videoAux outcome 4 1 4 from rfl, hs]
    have h3 : (like_videoAux outcome 4 1 4).attempts - 1 ≤ 3 := by omega
    set t := (like_videoAux outcome 4 1 4).attempts - 1 with hts
    interval_cases t <;> decide
  · intro h1 h2 h3
    have hc : (transientStatus (some 429) && decide ((1 : Nat) < 4)) = true := by decide
    have hc2 : (transientStatus (some 429) && decide ((2 : Nat) < 4)) = true := by decide
    rw [show like_video outcome = like_videoAux outcome 4 1 4 from rfl,
      like_videoAux_step_retry outcome 4 1 3 (some 429) h1 hc,
      like_videoAux_step_retry outcome 4 2 2 (some 429) h2 hc2,
      like_videoAux_step_success outcome 4 3 1 h3]
    rfl

/-- C1 witness: the amended schedule theorem evaluated on the mocked
[429, 429, success] run. -/
theorem like_video_backoff_schedule_witness :
    like_video outcomes429 = ⟨true, [2, 4], 3⟩ :=
  (like_video_backoff_schedule outcomes429).2.2 rfl rfl rfl

/-- C2: `like_video` retries an attempt exactly when the `HttpError`
status passes the transiency test of line 103 ({403, 429, 500, 503})
and attempts remain — attempt `k + 1` runs iff `k + 1 ≤ max_retries`
and attempts `1..k` all failed transiently — and on a permanent 404 it
returns failure after a single attempt with no backoff sleep. -/
theorem like_video_retry_iff (outcome : Nat → AttemptOutcome) (m : Nat)
    (hm : 1 ≤ m) :
    (∀ k, 1 ≤ k →
      (k < (like_video outcome m).attempts ↔
        (k + 1 ≤ m ∧
          ∀ j, 1 ≤ j → j ≤ k → transientOutcome (outcome j) = true))) ∧
    (outcome 1 = AttemptOutcome.httpError (some 404) →
      like_video outcome m = ⟨false, [], 1⟩) := by
  constructor
  · intro k hk
    have h := like_videoAux_attempts_iff outcome m m 1 (by omega) (by omega) k hk
    rw [show like_video outcome m = like_videoAux outcome m 1 m from rfl, h]
    constructor
    · rintro ⟨hb, hall⟩
      exact ⟨by omega, fun j hj1 hj2 => hall j hj1 (by omega)⟩
    · rintro ⟨hb, hall⟩
      exact ⟨by omega, fun j hj1 hj2 => hall j hj1 (by omega)⟩
  · intro h404
    match m, hm with
    | m' + 1, _ =>
      rw [show like_video outcome (m' + 1) = like_videoAux outcome (m' + 1) 1 (m' + 1) from rfl,
        like_videoAux_step_stop outcome (m' + 1) 1 m' (some 404) h404
          (by simp [show transientStatus (some 404) = false from by decide])]

/-- C2 witness: the retry-iff theorem evaluated at `max_retries = 4` on
the mocked permanent-404 run and, for the iff at `k = 1`, on the
all-429 run. -/
theorem like_video_retry_iff_witness :
    like_video outcomes404 4 = ⟨false, [], 1⟩ ∧
    (1 < (like_video outcomesAll429 4).attempts ↔
      (2 ≤ 4 ∧
        ∀ j, 1 ≤ j → j ≤ 1 → transientOutcome (outcomesAll429 j) = true)) :=
  ⟨(like_video_retry_iff outcomes404 4 (by decide)).2 rfl,
   (like_video_retry_iff outcomesAll429 4 (by decide)).1 1 (by decide)⟩

/-- C3: `like_video` is a total boolean-valued function of the video's
attempt outcomes — every recognized outcome of an attempt (success,
`HttpError`, any other `Exception`) is handled, so nothing escapes its
boundary — and it returns success exactly when some attempt's rating
call succeeds (reached through retried transient failures only);
otherwise, on a non-transient error or after exhausting all attempts,
it returns failure. -/
theorem like_video_ok_iff (outcome : Nat → AttemptOutcome) (m : Nat) :
    (like_video outcome m).ok = true ↔
      ∃ k, 1 ≤ k ∧ k ≤ m ∧ outcome k = AttemptOutcome.success ∧
        ∀ j, 1 ≤ j → j < k → transientOutcome (outcome j) = true := by
  exact like_videoAux_ok_iff outcome m m 1 (by omega)

/-! ## The playlist enumerator

A mocked paginated response sequence is a list of pages (the pages the
`list` / `list_next` loop visits until `list_next` returns `None`);
each page is its `items`, and each item is its
`contentDetails.get("videoId")` — `none` when the key is absent. -/

/-- The inner `for item in resp.get("items", [])` loop of one page:
collect each item's video id, skipping falsy ones (`if vid:` skips both
a missing id and an empty-string id). -/
def collectPageIds (items : List (Option String)) : List String :=
  items.filterMap (fun v =>
    match v with
    | some s => if s = "" then none else some s
    | none => none)

/-- The pagination loop of `get_video_ids_from_playlist`, carrying the
accumulated `ids` across pages. -/
def getVideoIdsAux : List (List (Option String)) → List String → List String
  | [], ids => ids
  | page :: rest, ids => getVideoIdsAux rest (ids ++ collectPageIds page)

/-- Embedding of `get_video_ids_from_playlist` (like_playlist.py lines
81-91). -/
def get_video_ids_from_playlist (pages : List (List (Option String))) :
    List String :=
  getVideoIdsAux pages []

example :
    get_video_ids_from_playlist
      [[some "a", none, some "b"], [some ""], [some "c"]] = ["a", "b", "c"] := by
  decide

theorem getVideoIdsAux_append (pages : List (List (Option String))) :
    ∀ ids, getVideoIdsAux pages ids = ids ++ getVideoIdsAux pages [] := by
  induction pages with
  | nil => intro ids; simp [getVideoIdsAux]
  | cons page rest ih =>
    intro ids
    simp only [getVideoIdsAux, List.nil_append]
    rw [ih (ids ++ collectPageIds page), ih (collectPageIds page)]
    simp

/-- For a page of genuine (non-empty) identifiers nothing is skipped. -/
theorem collectPageIds_of_ids (p : List String) (hp : ∀ v, v ∈ p → v ≠ "") :
    collectPageIds (p.map some) = p := by
  induction p with
  | nil => rfl
  | cons v rest ih =>
    have hv : v ≠ "" := hp v (by simp)
    simp only [List.map_cons, collectPageIds, List.filterMap_cons]
    rw [if_neg hv]
    have := ih (fun w hw => hp w (by simp [hw]))
    simp only [collectPageIds] at this
    rw [this]

/-- C4: the enumerator returns the concatenation, in page order, of
each page's collected video identifiers (items lacking an identifier
skipped): it satisfies the page-by-page recurrence, and three pages of
N genuine identifiers each yield exactly the 3×N identifiers in page
order. -/
theorem get_video_ids_pages_in_order :
    (∀ (page : List (Option String)) (pages : List (List (Option String))),
      get_video_ids_from_playlist (page :: pages) =
        collectPageIds page ++ get_video_ids_from_playlist pages) ∧
    get_video_ids_from_playlist [] = [] ∧
    (∀ (n : Nat) (p1 p2 p3 : List String),
      p1.length = n → p2.length = n → p3.length = n →
      (∀ v, v ∈ p1 ++ p2 ++ p3 → v ≠ "") →
      get_video_ids_from_playlist [p1.map some, p2.map some, p3.map some] =
          p1 ++ p2 ++ p3 ∧
        (get_video_ids_from_playlist
          [p1.map some, p2.map some, p3.map some]).length = 3 * n) := by
  have hrec : ∀ (page : List (Option String)) (pages : List (List (Option String))),
      get_video_ids_from_playlist (page :: pages) =
        collectPageIds page ++ get_video_ids_from_playlist pages := by
    intro page pages
    rw [get_video_ids_from_playlist, getVideoIdsAux,
      getVideoIdsAux_append pages (([] : List String) ++ collectPageIds page)]
    simp [get_video_ids_from_playlist]
  refine ⟨hrec, rfl, ?_⟩
  intro n p1 p2 p3 h1 h2 h3 hne
  have e1 : collectPageIds (p1.map some) = p1 :=
    collectPageIds_of_ids p1 (fun v hv => hne v (by simp [hv]))
  have e2 : collectPageIds (p2.map some) = p2 :=
    collectPageIds_of_ids p2 (fun v hv => hne v (by simp [hv]))
  have e3 : collectPageIds (p3.map some) = p3 :=
    collectPageIds_of_ids p3 (fun v hv => hne v (by simp [hv]))
  have heq : get_video_ids_from_playlist [p1.map some, p2.map some, p3.map some] =
      p1 ++ p2 ++ p3 := by
    rw [hrec, hrec, hrec, e1, e2, e3]
    simp [get_video_ids_from_playlist, getVideoIdsAux]
  refine ⟨heq, ?_⟩
  rw [heq]
  simp [List.length_append, h1, h2, h3]
  omega

/-- C4 witness: the page-order theorem evaluated on three concrete
2-identifier pages. -/
theorem get_video_ids_pages_in_order_witness :
    get_video_ids_from_playlist
        [[some "a", some "b"], [some "c", some "d"], [some "e", some "f"]] =
      ["a", "b", "c", "d", "e", "f"] ∧
    (get_video_ids_from_playlist
        [[some "a", some "b"], [some "c", some "d"], [some "e", some "f"]]).length =
      3 * 2 :=
  get_video_ids_pages_in_order.2.2 2 ["a", "b"] ["c", "d"] ["e", "f"]
    rfl rfl rfl (by decide)

/-! ## The driver `main`

`main` is modelled as a function of the parsed command-line arguments
and of the environment it runs against (file existence, the outcomes of
the network interactions, the confirmation answer), producing the
ordered trace of its outward-acting steps — credential acquisition, the
playlist fetch, each rating invocation, each inter-call sleep — and the
attempted/succeeded/failed summary it prints when the liking loop is
reached. `--delay` is a Python float, modelled as a rational. -/

/-- The parsed command-line options of the driver. -/
structure Args where
  playlist : String
  dry_run : Bool
  delay : Rat
  yes : Bool
deriving DecidableEq

/-- The environment a run of `main` interacts with. `likeOk i` is the
boolean `like_video` returns for the i-th enumerated video (`like_video`
is total, by `like_video_ok_iff`); `tokenFileExists` is carried to state
dry-run independence from it, the credential manager itself being
opaque to the driver claims. -/
structure Env where
  credentialsFileExists : Bool
  tokenFileExists : Bool
  authSucceeds : Bool
  fetchResult : Except Unit (List (List (Option String)))
  userConfirms : Bool
  likeOk : Nat → Bool

/-- One outward-acting step of the driver. -/
inductive Event where
  | acquireCredentials : Event
  | fetchPlaylist : Event
  | rateVideo : String → Event
  | interCallSleep : Rat → Event
deriving DecidableEq

/-- What a run of `main` did: its event trace and, when the liking loop
was reached, the printed (Attempted, Succeeded, Failed) summary. -/
structure RunResult where
  events : List Event
  summary : Option (Nat × Nat × Nat)
deriving DecidableEq

/-- The `succeeded` and `failed` tallies and the trace of one run of
the liking loop. -/
structure LoopResult where
  succeeded : Nat
  failed : Nat
  events : List Event
deriving DecidableEq

/-- The liking loop (like_playlist.py lines 164-178): per video, in
dry-run just print and `continue`; otherwise invoke the rating action,
tally the boolean, and sleep `max(0, args.delay)`. -/
def likeLoop (dryRun : Bool) (delay : Rat) (likeOk : Nat → Bool) :
    Nat → List String → LoopResult
  | _, [] => ⟨0, 0, []⟩
  | i, vid :: rest =>
    if dryRun then likeLoop dryRun delay likeOk (i + 1) rest
    else
      let r := likeLoop dryRun delay likeOk (i + 1) rest
      ⟨(if likeOk i then r.succeeded + 1 else r.succeeded),
       (if likeOk i then r.failed else r.failed + 1),
       Event.rateVideo vid :: Event.interCallSleep (max 0 delay) :: r.events⟩

/-- Embedding of `main` (like_playlist.py lines 115-183). An
`extract_playlist_id` error, the dry-run early return, a missing
client-secrets file, an authorization failure (which escapes uncaught),
a playlist-fetch `HttpError`, an empty enumeration and a declined
confirmation all end the run before the liking loop. -/
def main (args : Args) (env : Env) : RunResult :=
  match extract_playlist_id args.playlist with
  | Except.error _ => ⟨[], none⟩
  | Except.ok _ =>
    if args.dry_run then ⟨[], none⟩
    else if ¬ env.credentialsFileExists then ⟨[], none⟩
    else if ¬ env.authSucceeds then ⟨[Event.acquireCredentials], none⟩
    else
      match env.fetchResult with
      | Except.error _ => ⟨[Event.acquireCredentials, Event.fetchPlaylist], none⟩
      | Except.ok pages =>
        let video_ids := get_video_ids_from_playlist pages
        if video_ids.isEmpty then
          ⟨[Event.acquireCredentials, Event.fetchPlaylist], none⟩
        else if ¬ args.yes ∧ ¬ env.userConfirms then
          ⟨[Event.acquireCredentials, Event.fetchPlaylist], none⟩
        else
          let r := likeLoop args.dry_run args.delay env.likeOk 0 video_ids
          ⟨[Event.acquireCredentials, Event.fetchPlaylist] ++ r.events,
           some (video_ids.length, r.succeeded, r.failed)⟩

example :
    main ⟨"PLabc", true, 1, false⟩
      ⟨true, true, true, Except.ok [[some "a"]], true, fun _ => true⟩ =
    ⟨[], none⟩ := by decide

example :
    main ⟨"PLabc", false, 1, true⟩
      ⟨true, true, true, Except.ok [[some "a", some "b"]], false,
        fun i => i == 0⟩ =
    ⟨[Event.acquireCredentials, Event.fetchPlaylist,
      Event.rateVideo "a", Event.interCallSleep 1,
      Event.rateVideo "b", Event.interCallSleep 1],
     some (2, 1, 1)⟩ := by decide

/-- Projection selecting the rating invocations of a trace. -/
def ratedVideoOf : Event → Option String
  | Event.rateVideo v => some v
  | _ => none

theorem likeLoop_cons_false (delay : Rat) (likeOk : Nat → Bool)
    (i : Nat) (vid : String) (rest : List String) :
    likeLoop false delay likeOk i (vid :: rest) =
      ⟨(if likeOk i then (likeLoop false delay likeOk (i + 1) rest).succeeded + 1
        else (likeLoop false delay likeOk (i + 1) rest).succeeded),
       (if likeOk i then (likeLoop false delay likeOk (i + 1) rest).failed
        else (likeLoop false delay likeOk (i + 1) rest).failed + 1),
       Event.rateVideo vid ::
         Event.interCallSleep (max 0 delay) ::
           (likeLoop false delay likeOk (i + 1) rest).events⟩ := rfl

theorem likeLoop_cons_true (delay : Rat) (likeOk : Nat → Bool)
    (i : Nat) (vid : String) (rest : List String) :
    likeLoop true delay likeOk i (vid :: rest) =
      likeLoop true delay likeOk (i + 1) rest := rfl

theorem likeLoop_false_spec (delay : Rat) (likeOk : Nat → Bool) :
    ∀ (vids : List String) (i : Nat),
      (likeLoop false delay likeOk i vids).succeeded +
          (likeLoop false delay likeOk i vids).failed = vids.length ∧
      (likeLoop false delay likeOk i vids).events.filterMap ratedVideoOf = vids := by
  intro vids
  induction vids with
  | nil => intro i; simp [likeLoop, ratedVideoOf]
  | cons vid rest ih =>
    intro i
    obtain ⟨ha, hb⟩ := ih (i + 1)
    rw [likeLoop_cons_false]
    constructor
    · simp only [List.length_cons]
      by_cases hk : likeOk i = true
      · simp only [hk, if_true]
        omega
      · simp only [hk, Bool.false_eq_true, if_false]
        omega
    · simp only [List.filterMap_cons, ratedVideoOf]
      simp [hb]

theorem likeLoop_sleep_mem (dryRun : Bool) (delay : Rat) (likeOk : Nat → Bool)
    (q : Rat) :
    ∀ (vids : List String) (i : Nat),
      Event.interCallSleep q ∈ (likeLoop dryRun delay likeOk i vids).events →
      q = max 0 delay := by
  intro vids
  induction vids with
  | nil => intro i h; simp [likeLoop] at h
  | cons vid rest ih =>
    intro i h
    cases dryRun
    · rw [likeLoop_cons_false] at h
      simp only [List.mem_cons] at h
      rcases h with h1 | h2 | h3
      · exact absurd h1 (by simp)
      · exact (Event.interCallSleep.injEq _ _).mp h2
      · exact ih (i + 1) h3
    · rw [likeLoop_cons_true] at h
      exact ih (i + 1) h

/-! ## Claims C5, C6 and C10 about the driver -/

/-- C5: with `--dry-run` set the driver returns early — whatever the
rest of the environment looks like (token file present or not), the run
performs no credential acquisition, no playlist fetch, no rating call
and no inter-call sleep (an empty event trace), and never reaches the
liking loop (no summary). -/
theorem main_dry_run_no_network (args : Args) (env : Env)
    (h : args.dry_run = true) :
    main args env = ⟨[], none⟩ := by
  cases hex : extract_playlist_id args.playlist with
  | error e => simp [main, hex]
  | ok pid => simp [main, hex, h]

/-- Dry-run invocation used as the C5 witness (playlist ID given,
`--yes` not set). -/
def argsDry : Args := ⟨"PLabc", true, 1, false⟩

/-- Environment with no prior token file, a credentials file, and a
one-page playlist behind the API. -/
def envNoToken : Env :=
  ⟨true, false, true, Except.ok [[some "a", some "b"]], false, fun i => i == 0⟩

/-- C5 witness: the dry-run theorem evaluated on a concrete invocation
with no prior token. -/
theorem main_dry_run_no_network_witness : main argsDry envNoToken = ⟨[], none⟩ :=
  main_dry_run_no_network argsDry envNoToken rfl

/-- C6: when the liking loop runs (playlist resolved, not dry-run,
credentials present, authorization succeeded, fetch succeeded,
non-empty enumeration, confirmation given or suppressed), per-video
failures never abort the run: whatever boolean `like_video` returns for
each video, every enumerated identifier is rated in order and the
summary satisfies Attempted = number of enumerated videos and
Succeeded + Failed = Attempted. -/
theorem main_loop_tally (args : Args) (env : Env)
    (pages : List (List (Option String))) (pid : String)
    (hex : extract_playlist_id args.playlist = Except.ok pid)
    (hd : args.dry_run = false)
    (hcred : env.credentialsFileExists = true)
    (hauth : env.authSucceeds = true)
    (hfetch : env.fetchResult = Except.ok pages)
    (hne : get_video_ids_from_playlist pages ≠ [])
    (hconf : args.yes = true ∨ env.userConfirms = true) :
    ∃ s f, (main args env).summary =
        some ((get_video_ids_from_playlist pages).length, s, f) ∧
      s + f = (get_video_ids_from_playlist pages).length ∧
      (main args env).events.filterMap ratedVideoOf =
        get_video_ids_from_playlist pages := by
  have hie : (get_video_ids_from_playlist pages).isEmpty = false := by
    cases hv : get_video_ids_from_playlist pages with
    | nil => exact absurd hv hne
    | cons x xs => rfl
  have hcf : ¬ (¬ args.yes = true ∧ ¬ env.userConfirms = true) := by
    rcases hconf with h | h
    · intro hx; exact hx.1 h
    · intro hx; exact hx.2 h
  have hmain : main args env =
      ⟨[Event.acquireCredentials, Event.fetchPlaylist] ++
        (likeLoop false args.delay env.likeOk 0
          (get_video_ids_from_playlist pages)).events,
       some ((get_video_ids_from_playlist pages).length,
         (likeLoop false args.delay env.likeOk 0
           (get_video_ids_from_playlist pages)).succeeded,
         (likeLoop false args.delay env.likeOk 0
           (get_video_ids_from_playlist pages)).failed)⟩ := by
    rw [main, hex]
    simp only [hd, hcred, hauth, hfetch, hie]
    rw [if_neg (by simp), if_neg (by simp), if_neg (by simp),
      if_neg (by simp [hie]), if_neg hcf]
  obtain ⟨hsum, hrated⟩ :=
    likeLoop_false_spec args.delay env.likeOk (get_video_ids_from_playlist pages) 0
  refine ⟨_, _, ?_, hsum, ?_⟩
  · rw [hmain]
  · rw [hmain]
    simp only [List.append_eq, List.filterMap_append, List.filterMap_cons,
      List.filterMap_nil, ratedVideoOf]
    simpa using hrated

/-- Non-dry-run invocation with `--yes` used as the C6 witness. -/
def argsRun : Args := ⟨"PLabc", false, 1, true⟩

/-- C6 witness: the tally theorem evaluated on a two-video playlist
where the first rating succeeds and the second fails. -/
theorem main_loop_tally_witness :
    ∃ s f, (main argsRun envNoToken).summary =
        some ((get_video_ids_from_playlist [[some "a", some "b"]]).length, s, f) ∧
      s + f = (get_video_ids_from_playlist [[some "a", some "b"]]).length ∧
      (main argsRun envNoToken).events.filterMap ratedVideoOf =
        get_video_ids_from_playlist [[some "a", some "b"]] :=
  main_loop_tally argsRun envNoToken [[some "a", some "b"]] "PLabc"
    (by decide) rfl rfl rfl rfl (by decide) (Or.inl rfl)

theorem main_sleep_eq (args : Args) (env : Env) (q : Rat)
    (h : Event.interCallSleep q ∈ (main args env).events) :
    q = max 0 args.delay := by
  cases hex : extract_playlist_id args.playlist with
  | error e => simp [main, hex] at h
  | ok pid =>
    cases hdr : args.dry_run with
    | true => simp [main, hex, hdr] at h
    | false =>
      cases hcc : env.credentialsFileExists with
      | false => simp [main, hex, hdr, hcc] at h
      | true =>
        cases hau : env.authSucceeds with
        | false => simp [main, hex, hdr, hcc, hau] at h
        | true =>
          cases hfr : env.fetchResult with
          | error e => simp [main, hex, hdr, hcc, hau, hfr] at h
          | ok pages =>
            by_cases hie : (get_video_ids_from_playlist pages).isEmpty = true
            · simp [main, hex, hdr, hcc, hau, hfr, hie] at h
            · by_cases hcf : ¬ args.yes = true ∧ ¬ env.userConfirms = true
              · simp [main, hex, hdr, hcc, hau, hfr, hie, hcf] at h
              · simp only [main, hex, hdr, hcc, hau, hfr] at h
                rw [if_neg (by simp), if_neg (by simp), if_neg (by simp),
                  if_neg (by simpa using hie), if_neg hcf] at h
                simp only [List.append_eq, List.mem_append, List.mem_cons,
                  List.mem_singleton] at h
                rcases h with (h1 | h1 | h1) | h2
                · exact absurd h1 (by simp)
                · exact absurd h1 (by simp)
                · exact absurd h1 (by simp)
                · exact likeLoop_sleep_mem false args.delay env.likeOk q
                    (get_video_ids_from_playlist pages) 0 h2

/-- C10: every inter-call sleep the driver loop performs after a rating
call receives exactly `max(0, args.delay)` — hence never a negative
argument, and a negative `--delay` behaves as a zero delay. -/
theorem main_inter_call_sleep_clamped (args : Args) (env : Env) (q : Rat)
    (h : Event.interCallSleep q ∈ (main args env).events) :
    q = max 0 args.delay ∧ 0 ≤ q ∧ (args.delay < 0 → q = 0) := by
  have hq := main_sleep_eq args env q h
  refine ⟨hq, ?_, ?_⟩
  · rw [hq]; exact le_max_left 0 args.delay
  · intro hneg
    rw [hq]
    exact max_eq_left (le_of_lt hneg)

/-- Invocation with a negative `--delay` used as the C10 witness. -/
def argsNeg : Args := ⟨"PLabc", false, -1, true⟩

/-- C10 witness: with `--delay -1` the run's inter-call sleep event
carries 0, and the clamping theorem applies to it. -/
theorem main_inter_call_sleep_clamped_witness :
    Event.interCallSleep 0 ∈ (main argsNeg envNoToken).events ∧
    ((0 : Rat) = max 0 argsNeg.delay ∧ (0 : Rat) ≤ 0 ∧
      (argsNeg.delay < 0 → (0 : Rat) = 0)) :=
  ⟨by decide, main_inter_call_sleep_clamped argsNeg envNoToken 0 (by decide)⟩

/-! ## Claims C7-C9 about the resolver -/

end LikePlaylist
